import Mathlib

/-!
# Verification of the adaptive-bitrate HLS processing pipeline

Shallow embedding of the transcoding orchestration core of the
Adaptive-Bitrate-Streaming repository: the quality-ladder policy
(`defineQualityTargets`), the bitrate parser (`parseInt`), master-manifest
synthesis (`generateMasterPlaylist`), the worker-pool submission policy
(`submitJob`), the worker's per-job processing (`processJob`), the
result-aggregation loop of `ProcessVideo` (`aggregateLoop`), and its
finalization step (`finalizeOutcome`).

Go's `float64` aspect-ratio arithmetic is embedded as the exact rational
value, realised with integer floor division; at every concrete input
evaluated by a theorem below the `float64` computation and the exact
computation round to the same integer width (checked against IEEE-754
rounding by hand), and Go's `int(x)` truncation toward zero agrees with
the floor on the nonnegative values arising from positive source
dimensions.  Real-time waits (`time.After`) are embedded as explicit
events and oracles.
-/

namespace ABS

set_option maxHeartbeats 1000000

/-- Go `strings.Split(s, sep)` for the one-character separators the
processing package uses: splits around every occurrence and keeps empty
fields (`"" ↦ [""]`), exactly Go's semantics. -/
def splitOnChar (sep : Char) : List Char → List (List Char)
  | [] => [[]]
  | c :: rest =>
    let r := splitOnChar sep rest
    if c = sep then [] :: r
    else (c :: r.headD []) :: r.tail

/-- `strings.Split(s, sep)` lifted to `String`. -/
def goSplit (s : String) (sep : Char) : List String :=
  (splitOnChar sep s.data).map (fun l => ⟨l⟩)

/-- Go `strings.TrimSuffix(s, suffix)`: drop `suffix` if present, else
return `s` unchanged. -/
def goTrimSuffix (s suffix : String) : String :=
  if suffix.data.isSuffixOf s.data then
    ⟨s.data.take (s.data.length - suffix.data.length)⟩
  else s

/-- Digit accumulation used by Go `strconv.Atoi` on a validated digit
string. -/
def digitsToNat (l : List Char) : Nat :=
  l.foldl (fun acc c => acc * 10 + (c.toNat - 48)) 0

/-- Go `strconv.Atoi`: optional sign, then one or more decimal digits,
base 10, rejecting anything else; errors (here: `none`) on the empty
string, on any non-digit, and on 64-bit signed overflow. -/
def goAtoi (s : String) : Option Int :=
  match s.data with
  | [] => none
  | c :: rest =>
    let signAndDigits : Bool × List Char :=
      if c = '-' then (true, rest)
      else if c = '+' then (false, rest)
      else (false, c :: rest)
    let neg := signAndDigits.1
    let ds := signAndDigits.2
    if ds ≠ [] ∧ ds.all (fun d => d.isDigit) then
      let v : Int := if neg then -(digitsToNat ds : Int) else (digitsToNat ds : Int)
      if -(2 ^ 63) ≤ v ∧ v < 2 ^ 63 then some v else none
    else none

/-- `parseInt` from the processing package: strip one trailing `"k"`,
then one trailing `"K"`, `Atoi` the remainder, and fall back to `1000`
on any parse error. -/
def parseInt (s : String) : Int :=
  let s1 := goTrimSuffix s "k"
  let s2 := goTrimSuffix s1 "K"
  match goAtoi s2 with
  | some val => val
  | none => 1000

/-- Spec-side predicate, following the claim's words only (not the
source): a bitrate string that is "a decimal integer optionally
suffixed by 'k' or 'K'".  Used to compare the claimed domain of the
fallback with what `parseInt` actually accepts. -/
def specWellFormedBitrate (s : String) : Bool :=
  (goAtoi s).isSome
  || (['k'].isSuffixOf s.data && (goAtoi ⟨s.data.take (s.data.length - 1)⟩).isSome)
  || (['K'].isSuffixOf s.data && (goAtoi ⟨s.data.take (s.data.length - 1)⟩).isSome)

/-- `VideoMetadata` as filled in by `getVideoMetadata` (ffprobe).  The
`duration` float is embedded as a rational; it plays no role in the
claims. -/
structure VideoMetadata where
  width : Int
  height : Int
  duration : ℚ := 0
  bitrate : String := ""
  format : String := "mp4"
deriving DecidableEq, Inhabited

/-- `VideoQuality`: one rendition target, plus the output fields a worker
fills in after transcoding.  Field defaults mirror Go zero values. -/
structure VideoQuality where
  name : String := ""
  height : Int := 0
  width : Int := 0
  bitrate : String := ""
  size : Int := 0
  s3KeyPrefix : String := ""
  playlistURL : String := ""
  segmentCount : Int := 0
  duration : ℚ := 0
deriving DecidableEq, Inhabited

/-- One row of the fixed tier table in `defineQualityTargets`. -/
structure BaseQuality where
  name : String
  height : Int
  bitrate : String
deriving DecidableEq, Inhabited

/-- The fixed tier table `baseQualities` of `defineQualityTargets`. -/
def baseQualities : List BaseQuality :=
  [⟨"240p", 240, "500k"⟩, ⟨"480p", 480, "1500k"⟩,
   ⟨"720p", 720, "3000k"⟩, ⟨"1080p", 1080, "5000k"⟩]

/-- The width Go computes as `int(float64(base.height) * aspectRatio)`
with `aspectRatio = float64(width)/float64(height)`: embedded as the
floor of the exact rational `tierHeight * width / height`. -/
def scaledWidth (tierHeight width height : Int) : Int :=
  Int.fdiv (tierHeight * width) height

/-- `if v%2 != 0 { v-- }`: the evening applied to the scaled width and
to the tier height in `defineQualityTargets`. -/
def evenDown (v : Int) : Int :=
  if v % 2 ≠ 0 then v - 1 else v

/-- The rendition `defineQualityTargets` builds for one included tier:
scaled width and tier height, both forced even. -/
def tierTarget (metadata : VideoMetadata) (base : BaseQuality) : VideoQuality :=
  { name := base.name
    height := evenDown base.height
    width := evenDown (scaledWidth base.height metadata.width metadata.height)
    bitrate := base.bitrate }

/-- The `"original"` rendition `defineQualityTargets` appends when no
included tier matches the source height: the raw (not evened) source
dimensions at bitrate `"8000k"`. -/
def originalTarget (metadata : VideoMetadata) : VideoQuality :=
  { name := "original", height := metadata.height, width := metadata.width,
    bitrate := "8000k" }

/-- `ProcessingService.defineQualityTargets`: include each tier of
`baseQualities` with `height ≤ source.height` (as `tierTarget`), and
append `originalTarget` when no included tier's height equals the
source height. -/
def defineQualityTargets (metadata : VideoMetadata) : List VideoQuality :=
  let qualities := baseQualities.foldl (fun qualities base =>
    if base.height ≤ metadata.height then qualities ++ [tierTarget metadata base]
    else qualities) []
  let originalIncluded := qualities.any (fun q => q.height = metadata.height)
  if originalIncluded then qualities
  else qualities ++ [originalTarget metadata]

/-- The tier part of the ladder, in table form. -/
def ladderTiers (metadata : VideoMetadata) : List VideoQuality :=
  (baseQualities.filter (fun b => b.height ≤ metadata.height)).map (tierTarget metadata)

/-- `ProcessingJob` (worker_pool.go): one per rendition, created by
`ProcessVideo`.  `uuid.New()` job identities are embedded as the
submission index. -/
structure ProcessingJob where
  jobID : Nat := 0
  videoID : String := ""
  userID : String := ""
  inputPath : String := ""
  quality : VideoQuality := {}
  s3KeyPrefix : String := ""
  priority : Nat := 0
deriving DecidableEq, Inhabited

/-- `WorkerResult` (worker_pool.go): produced once per processed job.
`ProcessingTime` is real time and is not embedded. -/
structure WorkerResult where
  jobID : Nat := 0
  videoID : String := ""
  quality : VideoQuality := {}
  success : Bool := false
  error : String := ""
  segmentCount : Int := 0
  outputSize : Int := 0
deriving DecidableEq, Inhabited

/-- `Worker.processJob`: the transcode-and-upload step
(`generateHLSStreamWorker`) is embedded as its outcome, an
`Except`: `.error e` when any step (ffmpeg or an S3 upload) failed with
text `e`, `.ok q` the filled-in quality on success.  On error the result
keeps `success = false` (its zero value) and carries the error text; on
success the produced quality and its metrics are recorded. -/
def processJob (transcodeOutcome : Except String VideoQuality)
    (job : ProcessingJob) : WorkerResult :=
  let result : WorkerResult :=
    { jobID := job.jobID, videoID := job.videoID, quality := job.quality,
      success := false }
  match transcodeOutcome with
  | .error e => { result with error := e }
  | .ok processedQuality =>
    { result with
      success := true
      quality := processedQuality
      segmentCount := processedQuality.segmentCount
      outputSize := processedQuality.size }

/-- The fixed S3 bucket website address used for playlist and master
URLs. -/
def s3BucketBaseURL : String :=
  "https://adaptive-bitrate-streaming-videos.s3.ap-south-1.amazonaws.com/"

/-- The fixed object-key root prepended to every HLS key. -/
def s3KeyRoot : String := "adaptive-bitrate-streaming-videos"

/-- One `#EXT-X-STREAM-INF` block of the master playlist: bandwidth is
`parseInt(bitrate) * 1000`, resolution is `widthxheight`, and the
variant reference is the rendition's relative `playlist.m3u8` path. -/
def variantBlock (quality : VideoQuality) : String :=
  "#EXT-X-STREAM-INF:BANDWIDTH=" ++ toString (parseInt quality.bitrate * 1000) ++
    ",RESOLUTION=" ++ toString quality.width ++ "x" ++ toString quality.height ++
    "\n" ++ quality.name ++ "/playlist.m3u8\n\n"

/-- The outcome of `generateMasterPlaylist` on success: the assembled
manifest text, the single S3 object it is uploaded to (key and content
type), and the object's address, which becomes the master playlist
URL. -/
structure MasterPlaylist where
  content : String
  s3Key : String
  contentType : String
  url : String
deriving DecidableEq, Inhabited

deriving instance DecidableEq for Except

/-- `ProcessingService.generateMasterPlaylist`: errors on an empty
quality list and on a malformed first key prefix; otherwise derives the
user identity from segment 1 of the first quality's S3 key prefix,
assembles the version header plus one variant block per quality in list
order, and uploads the text once under
`<root>/<userID>/<videoID>/hls/master.m3u8`. -/
def generateMasterPlaylist (qualities : List VideoQuality)
    (videoID : String) : Except String MasterPlaylist :=
  if qualities.isEmpty then
    .error "no qualities to generate master playlist"
  else
    let parts := goSplit (qualities.headD {}).s3KeyPrefix '/'
    if parts.length < 3 then .error "invalid S3 key prefix format"
    else
      let userID := parts[1]!
      let content := qualities.foldl (fun content quality => content ++ variantBlock quality)
        "#EXTM3U\n#EXT-X-VERSION:3\n\n"
      let s3Key := s3KeyRoot ++ "/" ++ userID ++ "/" ++ videoID ++ "/hls/master.m3u8"
      .ok { content := content, s3Key := s3Key, contentType := "application/x-mpegURL", url := s3BucketBaseURL ++ s3Key }

/-- `ProcessingResult` (service.go): the outcome `ProcessVideo` returns.
`ProcessedAt`/`ProcessingTime` are real time and not embedded; the
`float64` compression ratio is embedded as a rational. -/
structure ProcessingResult where
  videoID : String := ""
  status : String := ""
  message : String := ""
  originalSize : Int := 0
  qualities : List VideoQuality := []
  totalSize : Int := 0
  compressionRatio : ℚ := 0
  masterPlaylistURL : String := ""
  streamingType : String := ""
deriving DecidableEq, Inhabited

/-- The state the aggregation loop of `ProcessVideo` accumulates:
`processedQualities` (successes only, in completion order),
`totalProcessedSize`, and `completedJobs`. -/
structure AggState where
  processedQualities : List VideoQuality := []
  totalProcessedSize : Int := 0
  completedJobs : Nat := 0
deriving DecidableEq, Inhabited

/-- The initial aggregation state of one `ProcessVideo` run. -/
def initAggState : AggState := {}

/-- One firing of the aggregation loop's `select`: a `WorkerResult`
arriving on the result channel, the 15-minute `time.After` timer firing,
or the context being cancelled. -/
inductive AggEvent where
  | result (r : WorkerResult)
  | timeout
  | cancelled
deriving DecidableEq, Inhabited

/-- How the aggregation loop ends on a given event sequence:
`finished` (the loop condition `completedJobs < expectedJobs` failed, so
`ProcessVideo` proceeds to finalization), `cancelledErr` (`ctx.Done()`
fired and `ProcessVideo` returns the cancellation error), or `blocked`
(the events are exhausted while the loop still waits on its `select` —
the loop has not proceeded to finalization). -/
inductive AggOutcome where
  | finished (st : AggState)
  | cancelledErr (st : AggState)
  | blocked (st : AggState)
deriving DecidableEq, Inhabited

/-- The body of the result case of the aggregation loop: count the
result as completed; append its quality and add its output size only
when `success` is true (a failure is logged and otherwise ignored). -/
def stepResult (st : AggState) (r : WorkerResult) : AggState :=
  let st := { st with completedJobs := st.completedJobs + 1 }
  if r.success then
    { st with
      processedQualities := st.processedQualities ++ [r.quality]
      totalProcessedSize := st.totalProcessedSize + r.outputSize }
  else st

/-- The aggregation loop of `ProcessVideo`
(`for completedJobs < expectedJobs { select ... }`).  In the timeout
case the Go source executes `break`, which in Go exits only the
`select` statement, not the `for` loop: the state is unchanged and the
loop re-enters the `select` (and the `time.After` channel never fires
again), so the `timeout` event does not end the loop. -/
def aggregateLoop (expectedJobs : Nat) (events : List AggEvent)
    (st : AggState) : AggOutcome :=
  if st.completedJobs < expectedJobs then
    match events with
    | [] => .blocked st
    | e :: rest =>
      match e with
      | .result r => aggregateLoop expectedJobs rest (stepResult st r)
      | .timeout => aggregateLoop expectedJobs rest st
      | .cancelled => .cancelledErr st
  else .finished st

/-- The qualities of the successful results of a trace, in trace
order. -/
def successQualities (rs : List WorkerResult) : List VideoQuality :=
  (rs.filter (fun r => r.success)).map (fun r => r.quality)

/-- The summed output size of the successful results of a trace. -/
def totalOutput (rs : List WorkerResult) : Int :=
  ((rs.filter (fun r => r.success)).map (fun r => r.outputSize)).sum

/-- The finalization step of `ProcessVideo` (after the aggregation
loop): build the master playlist from whatever qualities succeeded — an
error from `generateMasterPlaylist` is only logged, leaving the URL
empty — and return the outcome with status `"completed"`
unconditionally. -/
def finalizeOutcome (videoID : String) (originalSize : Int)
    (expectedJobs : Nat) (st : AggState) : ProcessingResult :=
  let masterPlaylistURL :=
    match generateMasterPlaylist st.processedQualities videoID with
    | .ok mp => mp.url
    | .error _ => ""
  { videoID := videoID
    status := "completed"
    message := "Parallel processing completed: " ++
      toString st.processedQualities.length ++ "/" ++ toString expectedJobs ++ " qualities"
    originalSize := originalSize
    qualities := st.processedQualities
    totalSize := st.totalProcessedSize
    compressionRatio := (st.totalProcessedSize : ℚ) / (originalSize : ℚ)
    masterPlaylistURL := masterPlaylistURL
    streamingType := "HLS" }

/-- The bounded-wait span of `SubmitJob`'s retry (`time.After(10 *
time.Second)`), in seconds. -/
def submitWaitSeconds : Nat := 10

/-- The aggregation loop's global timeout (`time.After(15 *
time.Minute)`), in minutes. -/
def aggregationTimeoutMinutes : Nat := 15

/-- The worker pool's shared state as `SubmitJob` sees it: the contents
of the bounded job channel, its capacity, and whether `Stop` has
cancelled the pool context. -/
structure WorkerPool where
  workerCount : Nat
  jobQueue : List ProcessingJob
  queueCapacity : Nat
  shuttingDown : Bool
deriving DecidableEq, Inhabited

/-- `NewWorkerPool(workerCount, ...)`: empty job channel with capacity
`workerCount * 2` (the result channel has the same capacity). -/
def newWorkerPool (workerCount : Nat) : WorkerPool :=
  { workerCount := workerCount, jobQueue := [], queueCapacity := workerCount * 2,
    shuttingDown := false }

/-- How one `SubmitJob` call ended. -/
inductive SubmitOutcome where
  | submitted
  | droppedShutdown
  | droppedAfterWait
deriving DecidableEq, Inhabited

/-- `WorkerPool.SubmitJob`: first a non-blocking `select` — enqueue if
the channel has room (taken with priority over a simultaneously-ready
`ctx.Done()`), return if the pool is shutting down — then, on a full
queue, a second `select` waiting up to `submitWaitSeconds` for room.
`spaceFreedWithinWait` is the oracle for that wait: `true` models a
worker dequeuing the head of the queue within the bounded wait (the
send then succeeds), `false` models the wait elapsing, after which the
job is dropped with no record. -/
def submitJob (wp : WorkerPool) (spaceFreedWithinWait : Bool)
    (job : ProcessingJob) : WorkerPool × SubmitOutcome :=
  if wp.jobQueue.length < wp.queueCapacity then
    ({ wp with jobQueue := wp.jobQueue ++ [job] }, .submitted)
  else if wp.shuttingDown then (wp, .droppedShutdown)
  else if spaceFreedWithinWait then
    ({ wp with jobQueue := wp.jobQueue.tail ++ [job] }, .submitted)
  else (wp, .droppedAfterWait)

/-- The externally visible actions `ProcessVideo` performs, in order:
the S3 source download, the ffprobe metadata probe, and each
`SubmitJob` call. -/
inductive Effect where
  | download
  | probe
  | submit (job : ProcessingJob)
deriving DecidableEq, Inhabited

/-- How one `ProcessVideo` run ends: an early error return (`nil,
err`), a completed `ProcessingResult`, or `neverReturns` — the
aggregation loop still blocked on its `select` with no further events
(the run has not reached finalization). -/
inductive ProcessOutcome where
  | error (msg : String)
  | completed (result : ProcessingResult)
  | neverReturns (st : AggState)
deriving DecidableEq, Inhabited

/-- The full record of one `ProcessVideo` run. -/
structure ProcessRun where
  outcome : ProcessOutcome
  effects : List Effect
  expectedJobs : Nat
  submittedJobs : List ProcessingJob
  droppedJobs : List ProcessingJob
deriving DecidableEq, Inhabited

/-- The environment one `ProcessVideo` run executes against: the
outcome of the S3 download (size or error), of the ffprobe probe, the
per-submission space-freed oracles of `SubmitJob`, and the event
sequence the aggregation loop's `select` sees. -/
structure ProcessEnv where
  download : Except String Int
  probe : Except String VideoMetadata
  submitFreed : List Bool := []
  events : List AggEvent := []
deriving Inhabited

/-- The job `ProcessVideo` builds for the `i`-th rendition of the
ladder: the output key prefix is
`<root>/<userID>/<videoID>/hls/<quality.name>`, the priority `i + 1`,
and the job identity (a fresh UUID in Go) the submission index. -/
def mkJob (userID videoID : String) (i : Nat) (quality : VideoQuality) : ProcessingJob :=
  { jobID := i, videoID := videoID, userID := userID,
    inputPath := "original.mp4", quality := quality,
    s3KeyPrefix := s3KeyRoot ++ "/" ++ userID ++ "/" ++ videoID ++ "/hls/" ++ quality.name,
    priority := i + 1 }

/-- The submission pass of `ProcessVideo`: submit every job in order
through `SubmitJob`, threading the pool state and using the `i`-th
space-freed oracle, and record which jobs were accepted and which
dropped. -/
def submitAll (env : ProcessEnv) (pool : WorkerPool) (jobs : List ProcessingJob) :
    WorkerPool × List ProcessingJob × List ProcessingJob :=
  (jobs.enum.foldl (fun acc ji =>
    let out := submitJob acc.1 (env.submitFreed.getD ji.1 false) ji.2
    match out.2 with
    | .submitted => (out.1, acc.2.1 ++ [ji.2], acc.2.2)
    | _ => (out.1, acc.2.1, acc.2.2 ++ [ji.2])) (pool, [], []))

/-- `ProcessingService.ProcessVideo`: validate the S3 key (four
`/`-separated segments) and take the user identity from segment 1;
download the source; probe it; compute the ladder; submit one job per
rendition with `expectedJobs := len(qualities)`; drain results until
`completedJobs` reaches `expectedJobs` (or the run is cancelled — the
15-minute timer, see `aggregateLoop`, never ends the loop); then
finalize with status `"completed"`. -/
def processVideo (env : ProcessEnv) (pool : WorkerPool)
    (s3Key videoID : String) : ProcessRun :=
  let parts := goSplit s3Key '/'
  if parts.length < 4 then
    { outcome := .error ("invalid S3 key format: " ++ s3Key), effects := [],
      expectedJobs := 0, submittedJobs := [], droppedJobs := [] }
  else
    let userID := parts[1]!
    match env.download with
    | .error e =>
      { outcome := .error ("failed to download video: " ++ e), effects := [.download],
        expectedJobs := 0, submittedJobs := [], droppedJobs := [] }
    | .ok originalSize =>
      match env.probe with
      | .error e =>
        { outcome := .error ("failed to get metadata: " ++ e),
          effects := [.download, .probe], expectedJobs := 0,
          submittedJobs := [], droppedJobs := [] }
      | .ok metadata =>
        let qualities := defineQualityTargets metadata
        let expectedJobs := qualities.length
        let jobs := qualities.enum.map (fun qi => mkJob userID videoID qi.1 qi.2)
        let subRes := submitAll env pool jobs
        let effects := [Effect.download, Effect.probe] ++ jobs.map Effect.submit
        let outcome :=
          match aggregateLoop expectedJobs env.events initAggState with
          | .blocked st => ProcessOutcome.neverReturns st
          | .cancelledErr _ => ProcessOutcome.error "processing cancelled"
          | .finished st =>
            ProcessOutcome.completed (finalizeOutcome videoID originalSize expectedJobs st)
        { outcome := outcome, effects := effects, expectedJobs := expectedJobs,
          submittedJobs := subRes.2.1, droppedJobs := subRes.2.2 }

/-- Sample rendition used by concrete witnesses: a successful 240p
quality carrying the standard key prefix. -/
def sample240 : VideoQuality :=
  { name := "240p", width := 426, height := 240, bitrate := "500k",
    s3KeyPrefix := "adaptive-bitrate-streaming-videos/u1/v1/hls/240p" }

/-- Sample successful worker result for `sample240`. -/
def sampleOkResult : WorkerResult :=
  { success := true, quality := sample240, outputSize := 5 }

/-- Sample job whose transcode fails in the witnesses: a 720p target. -/
def sampleJob720 : ProcessingJob :=
  { quality := { name := "720p" } }

/-! ## Lemmas about the quality ladder -/

lemma evenDown_emod (v : Int) : evenDown v % 2 = 0 := by
  unfold evenDown
  split <;> omega

lemma foldl_tiers (md : VideoMetadata) (l : List BaseQuality) (acc : List VideoQuality) :
    l.foldl (fun qualities base =>
      if base.height ≤ md.height then qualities ++ [tierTarget md base]
      else qualities) acc
    = acc ++ (l.filter (fun b => b.height ≤ md.height)).map (tierTarget md) := by
  induction l generalizing acc with
  | nil => simp
  | cons b l ih =>
    by_cases hb : b.height ≤ md.height <;> simp [hb, ih]

lemma defineQualityTargets_eq (md : VideoMetadata) :
    defineQualityTargets md =
      if (ladderTiers md).any (fun q => q.height = md.height) then ladderTiers md
      else ladderTiers md ++ [originalTarget md] := by
  unfold defineQualityTargets
  rw [foldl_tiers md baseQualities []]
  rfl

lemma mem_ladderTiers {md : VideoMetadata} {q : VideoQuality} (hq : q ∈ ladderTiers md) :
    ∃ b ∈ baseQualities, b.height ≤ md.height ∧ q = tierTarget md b := by
  simp only [ladderTiers, List.mem_map, List.mem_filter, decide_eq_true_eq] at hq
  obtain ⟨b, ⟨hb, hble⟩, rfl⟩ := hq
  exact ⟨b, hb, hble, rfl⟩

lemma ladderTiers_height {md : VideoMetadata} {q : VideoQuality} (hq : q ∈ ladderTiers md) :
    q.height = 240 ∨ q.height = 480 ∨ q.height = 720 ∨ q.height = 1080 := by
  obtain ⟨b, hb, _, rfl⟩ := mem_ladderTiers hq
  simp only [baseQualities, List.mem_cons, List.not_mem_nil, or_false] at hb
  rcases hb with rfl | rfl | rfl | rfl <;> simp [tierTarget, evenDown]

lemma ladderTiers_name {md : VideoMetadata} {q : VideoQuality} (hq : q ∈ ladderTiers md) :
    q.name = "240p" ∨ q.name = "480p" ∨ q.name = "720p" ∨ q.name = "1080p" := by
  obtain ⟨b, hb, _, rfl⟩ := mem_ladderTiers hq
  simp only [baseQualities, List.mem_cons, List.not_mem_nil, or_false] at hb
  rcases hb with rfl | rfl | rfl | rfl <;> simp [tierTarget]

lemma ladderTiers_any_false {md : VideoMetadata}
    (hne : md.height ≠ 240 ∧ md.height ≠ 480 ∧ md.height ≠ 720 ∧ md.height ≠ 1080) :
    (ladderTiers md).any (fun q => q.height = md.height) = false := by
  rw [← Bool.not_eq_true, List.any_eq_true]
  rintro ⟨q, hq, hq2⟩
  simp only [decide_eq_true_eq] at hq2
  rcases ladderTiers_height hq with h | h | h | h <;> omega

lemma ladderTiers_empty {md : VideoMetadata} (hlt : md.height < 240) :
    ladderTiers md = [] := by
  have h240 : ¬((240 : Int) ≤ md.height) := by omega
  have h480 : ¬((480 : Int) ≤ md.height) := by omega
  have h720 : ¬((720 : Int) ≤ md.height) := by omega
  have h1080 : ¬((1080 : Int) ≤ md.height) := by omega
  simp [ladderTiers, baseQualities, List.filter, h240, h480, h720, h1080]

/-! ## C3, C4, C5: the quality-ladder claims -/

/-- C3, counterexample: for a 1920×1080 source the ladder is not the
claimed list — the 480p entry cannot have width 854.  The code floors
`480 × (1920/1080) = 853.33…` to 853 and decrements the odd value to
852. -/
theorem claim_c3_counterexample :
    defineQualityTargets { width := 1920, height := 1080 } ≠
      [{ name := "240p", height := 240, width := 426, bitrate := "500k" },
       { name := "480p", height := 480, width := 854, bitrate := "1500k" },
       { name := "720p", height := 720, width := 1280, bitrate := "3000k" },
       { name := "1080p", height := 1080, width := 1920, bitrate := "5000k" }] := by
  decide

/-- C3, amended: for a 1920×1080 source the ladder is exactly, in
order, 240p at 426×240 with 500k, 480p at 852×480 with 1500k, 720p at
1280×720 with 3000k, and 1080p at 1920×1080 with 5000k, with no
additional "original" entry. -/
theorem claim_c3_ladder_1080p :
    defineQualityTargets { width := 1920, height := 1080 } =
      [{ name := "240p", height := 240, width := 426, bitrate := "500k" },
       { name := "480p", height := 480, width := 852, bitrate := "1500k" },
       { name := "720p", height := 720, width := 1280, bitrate := "3000k" },
       { name := "1080p", height := 1080, width := 1920, bitrate := "5000k" }] := by
  decide

/-- C4, counterexample: a positive-dimension source (641×360) whose
ladder contains a rendition — the appended "original" — with an odd
width: the original entry keeps the raw source width 641. -/
theorem claim_c4_counterexample :
    defineQualityTargets { width := 641, height := 360 } =
      [{ name := "240p", height := 240, width := 426, bitrate := "500k" },
       { name := "original", height := 360, width := 641, bitrate := "8000k" }]
    ∧ (641 : Int) % 2 ≠ 0 := by
  decide

/-- C4, amended: for every source with positive width and height, every
tier rendition of the ladder has even width and even height; the
"original" rendition (when appended) keeps the raw source width and
height, so it is even only when the source dimensions are. -/
theorem claim_c4_even_dimensions (md : VideoMetadata)
    (hw : 0 < md.width) (hh : 0 < md.height) :
    (∀ q ∈ defineQualityTargets md, q.name ≠ "original" →
      q.width % 2 = 0 ∧ q.height % 2 = 0)
    ∧ (∀ q ∈ defineQualityTargets md, q.name = "original" →
      q.width = md.width ∧ q.height = md.height) := by
  have htier : ∀ q ∈ ladderTiers md, q.width % 2 = 0 ∧ q.height % 2 = 0 := by
    intro q hq
    obtain ⟨b, _, _, rfl⟩ := mem_ladderTiers hq
    exact ⟨evenDown_emod _, evenDown_emod _⟩
  have hname : ∀ q ∈ ladderTiers md, q.name ≠ "original" := by
    intro q hq
    rcases ladderTiers_name hq with h | h | h | h <;> simp [h]
  rw [defineQualityTargets_eq]
  split
  · exact ⟨fun q hq _ => htier q hq, fun q hq h => absurd h (hname q hq)⟩
  · constructor
    · intro q hq hno
      rcases List.mem_append.1 hq with h | h
      · exact htier q h
      · simp only [List.mem_singleton] at h
        subst h
        simp [originalTarget] at hno
    · intro q hq ho
      rcases List.mem_append.1 hq with h | h
      · exact absurd ho (hname q h)
      · simp only [List.mem_singleton] at h
        subst h
        simp [originalTarget]

/-- C4, witness: the amended theorem applied to the 641×360 source. -/
theorem claim_c4_even_dimensions_witness :
    (0 : Int) < 641 ∧ (0 : Int) < 360 ∧
    ((∀ q ∈ defineQualityTargets { width := 641, height := 360 }, q.name ≠ "original" →
        q.width % 2 = 0 ∧ q.height % 2 = 0)
     ∧ (∀ q ∈ defineQualityTargets { width := 641, height := 360 }, q.name = "original" →
        q.width = 641 ∧ q.height = 360)) :=
  ⟨by decide, by decide,
    claim_c4_even_dimensions { width := 641, height := 360 } (by decide) (by decide)⟩

/-- C5: for every positive-dimension source whose height matches no
standard tier, the ladder is the included tiers (none named "original")
followed by exactly one final "original" rendition with the source
height, the source width and bitrate 8000k; for a 640×360 source the
ladder is `[240p(426×240,500k), original(640×360,8000k)]`; and any
source with height < 240 yields the "original" rendition alone. -/
theorem claim_c5_original_entry (md : VideoMetadata)
    (hw : 0 < md.width) (hh : 0 < md.height)
    (hne : md.height ≠ 240 ∧ md.height ≠ 480 ∧ md.height ≠ 720 ∧ md.height ≠ 1080) :
    defineQualityTargets md = ladderTiers md ++
      [{ name := "original", height := md.height, width := md.width, bitrate := "8000k" }]
    ∧ (∀ q ∈ ladderTiers md, q.name ≠ "original")
    ∧ defineQualityTargets { width := 640, height := 360 } =
        [{ name := "240p", height := 240, width := 426, bitrate := "500k" },
         { name := "original", height := 360, width := 640, bitrate := "8000k" }]
    ∧ (md.height < 240 → defineQualityTargets md =
        [{ name := "original", height := md.height, width := md.width, bitrate := "8000k" }]) := by
  refine ⟨?_, ?_, by decide, ?_⟩
  · rw [defineQualityTargets_eq]
    simp [ladderTiers_any_false hne, originalTarget]
  · intro q hq
    rcases ladderTiers_name hq with h | h | h | h <;> simp [h]
  · intro hlt
    rw [defineQualityTargets_eq]
    simp [ladderTiers_empty hlt, originalTarget]

/-- C5, witness: the theorem applied to the 640×360 source. -/
theorem claim_c5_original_entry_witness :
    (0 : Int) < 640 ∧ (0 : Int) < 360 ∧
    ((360 : Int) ≠ 240 ∧ (360 : Int) ≠ 480 ∧ (360 : Int) ≠ 720 ∧ (360 : Int) ≠ 1080) ∧
    defineQualityTargets { width := 640, height := 360 } =
      ladderTiers { width := 640, height := 360 } ++
        [{ name := "original", height := 360, width := 640, bitrate := "8000k" }] :=
  ⟨by decide, by decide, by decide,
    (claim_c5_original_entry { width := 640, height := 360 } (by decide) (by decide)
      (by decide)).1⟩

/-! ## C10: the bitrate parser -/

lemma goTrimSuffix_append_k (ds : List Char) :
    goTrimSuffix ⟨ds ++ ['k']⟩ "k" = ⟨ds⟩ := by
  have hsuf : ("k".data).isSuffixOf ((⟨ds ++ ['k']⟩ : String).data) = true := by
    rw [List.isSuffixOf_iff_suffix]
    exact List.suffix_append ds ['k']
  unfold goTrimSuffix
  rw [if_pos hsuf]
  congr 1
  show (ds ++ ['k']).take ((ds ++ ['k']).length - ("k".data).length) = ds
  have hlen : (ds ++ ['k']).length - ("k".data).length = ds.length := by simp
  rw [hlen]
  exact List.take_left ds ['k']

lemma goTrimSuffix_digits_K (ds : List Char) (hd : ds.all Char.isDigit = true) :
    goTrimSuffix ⟨ds⟩ "K" = ⟨ds⟩ := by
  unfold goTrimSuffix
  rw [if_neg]
  intro h
  rw [List.isSuffixOf_iff_suffix] at h
  have hk : 'K' ∈ ds := h.subset (by simp)
  have := List.all_eq_true.1 hd 'K' hk
  simp at this

lemma goAtoi_digits (ds : List Char) (h1 : ds ≠ []) (h2 : ds.all Char.isDigit = true)
    (h3 : digitsToNat ds < 2 ^ 63) :
    goAtoi ⟨ds⟩ = some ((digitsToNat ds : Int)) := by
  match ds, h1 with
  | c :: rest, _ =>
    have hc : c.isDigit = true := List.all_eq_true.1 h2 c (by simp)
    have hcm : ¬(c = '-') := by rintro rfl; simp at hc
    have hcp : ¬(c = '+') := by rintro rfl; simp at hc
    have hb1 : -(2 ^ 63 : Int) ≤ (digitsToNat (c :: rest) : Int) :=
      le_trans (by norm_num) (Int.natCast_nonneg _)
    have hb2 : (digitsToNat (c :: rest) : Int) < 2 ^ 63 := by exact_mod_cast h3
    unfold goAtoi
    simp only [hcm, hcp, if_false, ite_false]
    rw [if_pos ⟨List.cons_ne_nil c rest, h2⟩, if_pos ⟨hb1, hb2⟩]
    simp

lemma parseInt_digits_k (ds : List Char) (h1 : ds ≠ []) (h2 : ds.all Char.isDigit = true)
    (h3 : digitsToNat ds < 2 ^ 63) :
    parseInt ⟨ds ++ ['k']⟩ = digitsToNat ds := by
  unfold parseInt
  simp only [goTrimSuffix_append_k, goTrimSuffix_digits_K ds h2, goAtoi_digits ds h1 h2 h3]

/-- C10, counterexample: `"5Kk"` is not a decimal integer optionally
suffixed by 'k' or 'K' (in the claim's sense), yet `parseInt` returns 5
rather than the fallback 1000: it strips the trailing `"k"` and then the
trailing `"K"`. -/
theorem claim_c10_counterexample :
    specWellFormedBitrate "5Kk" = false ∧ parseInt "5Kk" = 5 ∧ (5 : Int) ≠ 1000 := by
  decide

/-- C10, amended: `parseInt` strips at most one trailing `'k'` and then
at most one trailing `'K'` and parses the remainder as a decimal
integer; whenever that remaining parse fails it returns the fallback
1000, making the manifest bandwidth 1000000; and for a well-formed
string `"<n>k"` the parsed value is `n`, making the emitted bandwidth
exactly `n × 1000`.  (Strings such as `"<n>Kk"` are also accepted, so
the fallback's domain is smaller than the claim states.) -/
theorem claim_c10_parse_fallback :
    (∀ s : String, goAtoi (goTrimSuffix (goTrimSuffix s "k") "K") = none →
      parseInt s = 1000 ∧ parseInt s * 1000 = 1000000)
    ∧ (∀ ds : List Char, ds ≠ [] → ds.all Char.isDigit = true →
        digitsToNat ds < 2 ^ 63 →
        parseInt ⟨ds ++ ['k']⟩ = digitsToNat ds ∧
        parseInt ⟨ds ++ ['k']⟩ * 1000 = (digitsToNat ds : Int) * 1000) := by
  constructor
  · intro s h
    unfold parseInt
    simp only [h]
    norm_num
  · intro ds h1 h2 h3
    have h := parseInt_digits_k ds h1 h2 h3
    exact ⟨h, by rw [h]⟩

/-- C10, witness: the fallback at `"abc"` and the exact bandwidth at
`"1500k"`. -/
theorem claim_c10_parse_fallback_witness :
    goAtoi (goTrimSuffix (goTrimSuffix "abc" "k") "K") = none ∧
    (parseInt "abc" = 1000 ∧ parseInt "abc" * 1000 = 1000000) ∧
    (['1', '5', '0', '0'] ≠ ([] : List Char) ∧
      ['1', '5', '0', '0'].all Char.isDigit = true ∧
      digitsToNat ['1', '5', '0', '0'] < 2 ^ 63) ∧
    (parseInt ⟨['1', '5', '0', '0'] ++ ['k']⟩ = digitsToNat ['1', '5', '0', '0'] ∧
      parseInt ⟨['1', '5', '0', '0'] ++ ['k']⟩ * 1000 =
        (digitsToNat ['1', '5', '0', '0'] : Int) * 1000) :=
  ⟨by decide, claim_c10_parse_fallback.1 "abc" (by decide),
   ⟨by decide, by decide, by decide⟩,
   claim_c10_parse_fallback.2 ['1', '5', '0', '0'] (by decide) (by decide) (by decide)⟩

/-! ## Lemmas about aggregation and manifest synthesis -/

lemma stepResult_completed (st : AggState) (r : WorkerResult) :
    (stepResult st r).completedJobs = st.completedJobs + 1 := by
  unfold stepResult
  split <;> rfl

lemma stepResult_processed (st : AggState) (r : WorkerResult) :
    (stepResult st r).processedQualities =
      st.processedQualities ++ (if r.success then [r.quality] else []) := by
  unfold stepResult
  split <;> simp

lemma stepResult_total (st : AggState) (r : WorkerResult) :
    (stepResult st r).totalProcessedSize =
      st.totalProcessedSize + (if r.success then r.outputSize else 0) := by
  unfold stepResult
  split <;> simp

lemma successQualities_cons (r : WorkerResult) (rs : List WorkerResult) :
    successQualities (r :: rs) =
      (if r.success then [r.quality] else []) ++ successQualities rs := by
  unfold successQualities
  by_cases h : r.success <;> simp [h]

lemma totalOutput_cons (r : WorkerResult) (rs : List WorkerResult) :
    totalOutput (r :: rs) = (if r.success then r.outputSize else 0) + totalOutput rs := by
  unfold totalOutput
  by_cases h : r.success <;> simp [h]

lemma mem_successQualities {q : VideoQuality} {rs : List WorkerResult} :
    q ∈ successQualities rs ↔ ∃ r ∈ rs, r.success = true ∧ r.quality = q := by
  simp [successQualities, List.mem_map, List.mem_filter, and_assoc]

lemma aggregateLoop_results (rs : List WorkerResult) :
    ∀ (st : AggState),
      aggregateLoop (st.completedJobs + rs.length) (rs.map AggEvent.result) st =
        .finished { processedQualities := st.processedQualities ++ successQualities rs
                    totalProcessedSize := st.totalProcessedSize + totalOutput rs
                    completedJobs := st.completedJobs + rs.length } := by
  induction rs with
  | nil =>
    intro st
    unfold aggregateLoop
    simp [successQualities, totalOutput]
  | cons r rs ih =>
    intro st
    unfold aggregateLoop
    rw [if_pos (by simp only [List.length_cons]; omega)]
    simp only [List.map_cons]
    have harity : st.completedJobs + (r :: rs).length =
        (stepResult st r).completedJobs + rs.length := by
      rw [stepResult_completed]
      simp only [List.length_cons]
      omega
    rw [harity, ih (stepResult st r)]
    simp only [AggOutcome.finished.injEq, AggState.mk.injEq, stepResult_processed,
      stepResult_total, stepResult_completed, successQualities_cons, totalOutput_cons,
      List.length_cons, List.append_assoc, Int.add_assoc]

lemma aggregateLoop_result_trace (rs : List WorkerResult) :
    aggregateLoop rs.length (rs.map AggEvent.result) initAggState =
      .finished { processedQualities := successQualities rs
                  totalProcessedSize := totalOutput rs
                  completedJobs := rs.length } := by
  have h := aggregateLoop_results rs initAggState
  simpa [initAggState] using h

lemma foldl_append_hoist (l : List String) : ∀ (a b : String),
    l.foldl (· ++ ·) (a ++ b) = a ++ l.foldl (· ++ ·) b := by
  induction l with
  | nil => intro a b; rfl
  | cons s l ih => intro a b; simp only [List.foldl, String.append_assoc, ih]

lemma join_cons (s : String) (l : List String) :
    String.join (s :: l) = s ++ String.join l := by
  show l.foldl (· ++ ·) ("" ++ s) = s ++ l.foldl (· ++ ·) ""
  rw [String.empty_append, ← String.append_empty s, foldl_append_hoist]
  simp [String.append_empty]

lemma manifest_content_foldl (qs : List VideoQuality) : ∀ (init : String),
    qs.foldl (fun content quality => content ++ variantBlock quality) init =
      init ++ String.join (qs.map variantBlock) := by
  induction qs with
  | nil => intro init; simp [String.join]
  | cons q qs ih =>
    intro init
    simp only [List.foldl, List.map_cons, join_cons, ih, String.append_assoc]

lemma processVideo_valid (env : ProcessEnv) (pool : WorkerPool)
    (s3Key videoID : String) (n : Int) (md : VideoMetadata)
    (hkey : ¬ (goSplit s3Key '/').length < 4)
    (hd : env.download = .ok n) (hp : env.probe = .ok md) :
    processVideo env pool s3Key videoID =
      { outcome :=
          match aggregateLoop (defineQualityTargets md).length env.events initAggState with
          | .blocked st => ProcessOutcome.neverReturns st
          | .cancelledErr _ => ProcessOutcome.error "processing cancelled"
          | .finished st =>
            ProcessOutcome.completed
              (finalizeOutcome videoID n (defineQualityTargets md).length st)
        effects := [Effect.download, Effect.probe] ++
          ((defineQualityTargets md).enum.map
            (fun qi => mkJob (goSplit s3Key '/')[1]! videoID qi.1 qi.2)).map Effect.submit
        expectedJobs := (defineQualityTargets md).length
        submittedJobs := (submitAll env pool ((defineQualityTargets md).enum.map
          (fun qi => mkJob (goSplit s3Key '/')[1]! videoID qi.1 qi.2))).2.1
        droppedJobs := (submitAll env pool ((defineQualityTargets md).enum.map
          (fun qi => mkJob (goSplit s3Key '/')[1]! videoID qi.1 qi.2))).2.2 } := by
  unfold processVideo
  rw [if_neg hkey]
  simp only [hd, hp]

/-! ## C1, C2, C6, C7: worker results, aggregation and finalization -/

/-- C1: a job whose transcode or upload step fails yields a Result with
`success = false` carrying the error text; a trace in which that failed
Result arrives among `expected = rs.length` results still finishes the
aggregation loop with `completedJobs = expected`, excludes the failed
rendition from `processedQualities` (and hence from the master
manifest, which is built from `processedQualities` alone), and the
finalized outcome still reports status `"completed"`. -/
theorem claim_c1_partial_failure (err : String) (job : ProcessingJob)
    (rs : List WorkerResult) (videoID : String) (originalSize : Int)
    (hmem : processJob (Except.error err) job ∈ rs)
    (hq : ∀ r ∈ rs, r.success = true → r.quality ≠ job.quality) :
    (processJob (Except.error err) job).success = false
    ∧ (processJob (Except.error err) job).error = err
    ∧ (processJob (Except.error err) job).quality = job.quality
    ∧ aggregateLoop rs.length (rs.map AggEvent.result) initAggState =
        .finished { processedQualities := successQualities rs
                    totalProcessedSize := totalOutput rs
                    completedJobs := rs.length }
    ∧ job.quality ∉ successQualities rs
    ∧ (finalizeOutcome videoID originalSize rs.length
        { processedQualities := successQualities rs
          totalProcessedSize := totalOutput rs
          completedJobs := rs.length }).status = "completed" := by
  refine ⟨rfl, rfl, rfl, aggregateLoop_result_trace rs, ?_, rfl⟩
  intro hq2
  obtain ⟨r, hr, hrs, hrq⟩ := mem_successQualities.1 hq2
  exact hq r hr hrs hrq

/-- C1, witness: a two-job trace in which the 720p transcode fails and
the 240p rendition succeeds. -/
theorem claim_c1_partial_failure_witness :
    (processJob (Except.error "ffmpeg failed") sampleJob720 ∈
      [processJob (Except.error "ffmpeg failed") sampleJob720, sampleOkResult]) ∧
    (processJob (Except.error "ffmpeg failed") sampleJob720).success = false ∧
    sampleJob720.quality ∉ successQualities
      [processJob (Except.error "ffmpeg failed") sampleJob720, sampleOkResult] ∧
    (finalizeOutcome "v1" 100 2
      { processedQualities := successQualities
          [processJob (Except.error "ffmpeg failed") sampleJob720, sampleOkResult]
        totalProcessedSize := totalOutput
          [processJob (Except.error "ffmpeg failed") sampleJob720, sampleOkResult]
        completedJobs := 2 }).status = "completed" := by
  have h := claim_c1_partial_failure "ffmpeg failed" sampleJob720
    [processJob (Except.error "ffmpeg failed") sampleJob720, sampleOkResult]
    "v1" 100 (by decide) (by decide)
  exact ⟨by decide, h.1, h.2.2.2.2.1, h.2.2.2.2.2⟩

/-- C2: the code does not end the aggregation loop at the 15-minute
timeout.  Go's `break` in the timeout case exits only the `select`, so
with `expected = 1` and nothing else arriving, the loop consumes the
single firing of the `time.After` channel and is still draining
(blocked on its `select`), not proceeding to finalization as the claim
requires. -/
theorem claim_c2_timeout_does_not_exit :
    aggregateLoop 1 [AggEvent.timeout] initAggState = .blocked initAggState := by
  decide

/-- C6: for a non-empty success list whose first S3 key prefix is
well-formed, the aggregation loop appends successes in completion
order, and `generateMasterPlaylist` produces the version header
followed by one variant block per successful rendition in that order,
uploading the text once under
`<root>/<userID>/<videoID>/hls/master.m3u8`, whose address is the
master playlist URL. -/
theorem claim_c6_master_manifest (rs : List WorkerResult) (videoID userID : String)
    (hne : successQualities rs ≠ [])
    (hparts : 3 ≤ (goSplit ((successQualities rs).headD {}).s3KeyPrefix '/').length)
    (huser : (goSplit ((successQualities rs).headD {}).s3KeyPrefix '/')[1]! = userID) :
    aggregateLoop rs.length (rs.map AggEvent.result) initAggState =
      .finished { processedQualities := successQualities rs
                  totalProcessedSize := totalOutput rs
                  completedJobs := rs.length }
    ∧ generateMasterPlaylist (successQualities rs) videoID =
        .ok { content := "#EXTM3U\n#EXT-X-VERSION:3\n\n" ++
                String.join ((successQualities rs).map variantBlock)
              s3Key := s3KeyRoot ++ "/" ++ userID ++ "/" ++ videoID ++ "/hls/master.m3u8"
              contentType := "application/x-mpegURL"
              url := s3BucketBaseURL ++
                (s3KeyRoot ++ "/" ++ userID ++ "/" ++ videoID ++ "/hls/master.m3u8") }
    ∧ (∀ q ∈ successQualities rs, variantBlock q =
        "#EXT-X-STREAM-INF:BANDWIDTH=" ++ toString (parseInt q.bitrate * 1000) ++
        ",RESOLUTION=" ++ toString q.width ++ "x" ++ toString q.height ++ "\n" ++
        q.name ++ "/playlist.m3u8\n\n") := by
  refine ⟨aggregateLoop_result_trace rs, ?_, fun q _ => rfl⟩
  obtain ⟨q0, qs', hcons⟩ := List.exists_cons_of_ne_nil hne
  rw [hcons] at hparts huser ⊢
  unfold generateMasterPlaylist
  rw [if_neg (by simp)]
  rw [if_neg (by omega)]
  rw [manifest_content_foldl]
  rw [huser]

/-- C6, witness: one successful 240p rendition with the standard key
prefix. -/
theorem claim_c6_master_manifest_witness :
    successQualities [sampleOkResult] ≠ [] ∧
    generateMasterPlaylist (successQualities [sampleOkResult]) "v1" =
      .ok { content := "#EXTM3U\n#EXT-X-VERSION:3\n\n" ++
              String.join ((successQualities [sampleOkResult]).map variantBlock)
            s3Key := s3KeyRoot ++ "/" ++ "u1" ++ "/" ++ "v1" ++ "/hls/master.m3u8"
            contentType := "application/x-mpegURL"
            url := s3BucketBaseURL ++
              (s3KeyRoot ++ "/" ++ "u1" ++ "/" ++ "v1" ++ "/hls/master.m3u8") } := by
  have h := claim_c6_master_manifest [sampleOkResult] "v1" "u1"
    (by decide) (by decide) (by decide)
  exact ⟨by decide, h.2.1⟩

/-- C7: with zero successful renditions the finalized outcome still has
status `"completed"`, an empty rendition list and an empty master
playlist URL (`generateMasterPlaylist` errors on the empty list, and a
manifest error is only logged — for any aggregation state whose
manifest generation errors, the URL stays empty and the status stays
`"completed"`). -/
theorem claim_c7_zero_renditions (videoID : String) (originalSize : Int)
    (expectedJobs : Nat) (st st2 : AggState) (e : String)
    (hempty : st.processedQualities = [])
    (herr : generateMasterPlaylist st2.processedQualities videoID = .error e) :
    generateMasterPlaylist st.processedQualities videoID =
      .error "no qualities to generate master playlist"
    ∧ (finalizeOutcome videoID originalSize expectedJobs st).status = "completed"
    ∧ (finalizeOutcome videoID originalSize expectedJobs st).qualities = []
    ∧ (finalizeOutcome videoID originalSize expectedJobs st).masterPlaylistURL = ""
    ∧ (finalizeOutcome videoID originalSize expectedJobs st2).masterPlaylistURL = ""
    ∧ (finalizeOutcome videoID originalSize expectedJobs st2).status = "completed" := by
  have hgen : generateMasterPlaylist st.processedQualities videoID =
      .error "no qualities to generate master playlist" := by
    rw [hempty]
    rfl
  refine ⟨hgen, rfl, ?_, ?_, ?_, rfl⟩
  · simp [finalizeOutcome, hempty]
  · unfold finalizeOutcome
    simp only [hgen]
  · unfold finalizeOutcome
    simp only [herr]

/-- C7, witness: the empty aggregation state. -/
theorem claim_c7_zero_renditions_witness :
    (initAggState.processedQualities = [] ∧
      generateMasterPlaylist initAggState.processedQualities "v1" =
        .error "no qualities to generate master playlist") ∧
    (finalizeOutcome "v1" 100 4 initAggState).status = "completed" ∧
    (finalizeOutcome "v1" 100 4 initAggState).qualities = [] ∧
    (finalizeOutcome "v1" 100 4 initAggState).masterPlaylistURL = "" := by
  have h := claim_c7_zero_renditions "v1" 100 4 initAggState initAggState
    "no qualities to generate master playlist" (by decide) (by decide)
  exact ⟨⟨by decide, h.1⟩, h.2.1, h.2.2.1, h.2.2.2.1⟩

/-! ## C8, C9: job submission and entry validation -/

/-- C8: the job queue is bounded at `2N`; `SubmitJob` first attempts a
non-blocking enqueue (accepting immediately when the queue has room,
whatever the wait oracle says); on a full queue it waits the bounded
`submitWaitSeconds = 10` for space and, if none frees, gives up and
drops the job with the queue unchanged — a dropped job is never
enqueued, so no worker ever produces a Result for it; and
`ProcessVideo`'s `expectedJobs` is the ladder length for every
environment and pool state, so a dropped job still counts toward the
expected total. -/
theorem claim_c8_submit_drop_policy :
    ((∀ n : Nat, (newWorkerPool n).queueCapacity = n * 2) ∧ submitWaitSeconds = 10)
    ∧ (∀ (wp : WorkerPool) (freed : Bool) (job : ProcessingJob),
        wp.jobQueue.length < wp.queueCapacity →
        submitJob wp freed job = ({ wp with jobQueue := wp.jobQueue ++ [job] }, .submitted))
    ∧ (∀ (wp : WorkerPool) (job : ProcessingJob),
        ¬ wp.jobQueue.length < wp.queueCapacity → wp.shuttingDown = false →
        submitJob wp false job = (wp, .droppedAfterWait) ∧
        (job ∉ wp.jobQueue → job ∉ (submitJob wp false job).1.jobQueue))
    ∧ (∀ (env : ProcessEnv) (pool : WorkerPool) (s3Key videoID : String)
        (n : Int) (md : VideoMetadata),
        ¬ (goSplit s3Key '/').length < 4 →
        env.download = .ok n → env.probe = .ok md →
        (processVideo env pool s3Key videoID).expectedJobs =
          (defineQualityTargets md).length) := by
  refine ⟨⟨fun n => rfl, rfl⟩, ?_, ?_, ?_⟩
  · intro wp freed job h
    unfold submitJob
    rw [if_pos h]
  · intro wp job h1 h2
    have heq : submitJob wp false job = (wp, .droppedAfterWait) := by
      unfold submitJob
      rw [if_neg h1, if_neg (by simp [h2]), if_neg (by simp)]
    exact ⟨heq, fun hnot => by rw [heq]; exact hnot⟩
  · intro env pool s3Key videoID n md hkey hd hp
    rw [processVideo_valid env pool s3Key videoID n md hkey hd hp]

/-- C8, witness: a pool of one worker (capacity 2) whose queue is full
drops a submission unchanged, and a 640×360 probe yields
`expectedJobs = 2` regardless of the oracle. -/
theorem claim_c8_submit_drop_policy_witness :
    (newWorkerPool 1).queueCapacity = 1 * 2 ∧
    (¬ ({ newWorkerPool 1 with
          jobQueue := [sampleJob720, sampleJob720] } : WorkerPool).jobQueue.length <
        ({ newWorkerPool 1 with jobQueue := [sampleJob720, sampleJob720] } :
          WorkerPool).queueCapacity) ∧
    submitJob { newWorkerPool 1 with jobQueue := [sampleJob720, sampleJob720] } false
        { jobID := 9 } =
      ({ newWorkerPool 1 with jobQueue := [sampleJob720, sampleJob720] },
        .droppedAfterWait) ∧
    (processVideo { download := .ok 100, probe := .ok { width := 640, height := 360 } }
      (newWorkerPool 1) "uploads/u1/videos/f.mp4" "v1").expectedJobs =
      (defineQualityTargets { width := 640, height := 360 }).length := by
  refine ⟨(claim_c8_submit_drop_policy.1.1 1), by decide, ?_, ?_⟩
  · exact (claim_c8_submit_drop_policy.2.2.1
      { newWorkerPool 1 with jobQueue := [sampleJob720, sampleJob720] }
      { jobID := 9 } (by decide) (by decide)).1
  · exact claim_c8_submit_drop_policy.2.2.2
      { download := .ok 100, probe := .ok { width := 640, height := 360 } }
      (newWorkerPool 1) "uploads/u1/videos/f.mp4" "v1" 100
      { width := 640, height := 360 } (by decide) rfl rfl

/-- C9: a storage key with fewer than four `/`-separated segments makes
`ProcessVideo` return the "invalid S3 key format" error with an empty
effect list — no download, no probe, no submission, no state change —
and for a valid key the user identity in every submitted job and output
key prefix is segment 1 (the second segment) of the key. -/
theorem claim_c9_key_validation :
    (∀ (env : ProcessEnv) (pool : WorkerPool) (s3Key videoID : String),
      (goSplit s3Key '/').length < 4 →
      processVideo env pool s3Key videoID =
        { outcome := .error ("invalid S3 key format: " ++ s3Key), effects := [],
          expectedJobs := 0, submittedJobs := [], droppedJobs := [] })
    ∧ (∀ (env : ProcessEnv) (pool : WorkerPool) (s3Key videoID : String)
        (n : Int) (md : VideoMetadata) (job : ProcessingJob),
        ¬ (goSplit s3Key '/').length < 4 →
        env.download = .ok n → env.probe = .ok md →
        Effect.submit job ∈ (processVideo env pool s3Key videoID).effects →
        job.userID = (goSplit s3Key '/')[1]! ∧
        job.s3KeyPrefix = s3KeyRoot ++ "/" ++ (goSplit s3Key '/')[1]! ++ "/" ++
          videoID ++ "/hls/" ++ job.quality.name) := by
  constructor
  · intro env pool s3Key videoID h
    unfold processVideo
    rw [if_pos h]
  · intro env pool s3Key videoID n md job hkey hd hp hmem
    rw [processVideo_valid env pool s3Key videoID n md hkey hd hp] at hmem
    rcases List.mem_append.1 hmem with h | h
    · simp at h
    · obtain ⟨j, hj, hinj⟩ := List.mem_map.1 h
      have hj2 := Effect.submit.inj hinj
      subst hj2
      obtain ⟨qi, hqi, rfl⟩ := List.mem_map.1 hj
      exact ⟨rfl, rfl⟩

/-- C9, witness: the key `"short"` (one segment) is rejected with no
effects, and for the valid key `"uploads/u1/videos/f.mp4"` a submitted
job's user identity is `"u1"`. -/
theorem claim_c9_key_validation_witness :
    (goSplit "short" '/').length < 4 ∧
    processVideo { download := .ok 100, probe := .ok { width := 640, height := 360 } }
        (newWorkerPool 4) "short" "v1" =
      { outcome := .error ("invalid S3 key format: " ++ "short"), effects := [],
        expectedJobs := 0, submittedJobs := [], droppedJobs := [] } :=
  ⟨by decide,
    claim_c9_key_validation.1
      { download := .ok 100, probe := .ok { width := 640, height := 360 } }
      (newWorkerPool 4) "short" "v1" (by decide)⟩

end ABS
